import Mathlib

/-!
Verification of the batching/dispatch layer of BentoML's marshal service
(`bentoml/marshal/marshal.py`) and of the batch path of
`bentoml/handlers/tensorflow_tensor_handler.py`, as a shallow embedding.

Python's `OrderedDict` is embedded as an association list kept in insertion
order; raising an exception is embedded as `Except`; the single-threaded
cooperative scheduler is embedded by treating each synchronous stretch of
Python (no `await` inside) as one atomic step.
-/

namespace Marshal

/-- The Python exceptions that the modelled code can raise. -/
inductive PyErr
  | assertionError
  | attributeError
  | typeError
  | exception
deriving DecidableEq, Repr

/-- `Parade.STATUSES = (STATUS_OPEN, STATUS_CLOSED, STATUS_RETURNED) = range(3)`. -/
inductive Status
  | OPEN
  | CLOSED
  | RETURNED
deriving DecidableEq, Repr

/-- `OrderedDict` assignment `d[k] = v`: replace the value in place if the key
is present (keeping its position), otherwise append the pair at the end. -/
def odInsert (k : String) (v : α) : List (String × α) → List (String × α)
  | [] => [(k, v)]
  | (k', v') :: rest =>
      if k' = k then (k, v) :: rest else (k', v') :: odInsert k v rest

/-- `OrderedDict` lookup `d.get(k)`: the value stored at `k`, or `None`. -/
def odLookup (k : String) : List (String × α) → Option α
  | [] => none
  | (k', v) :: rest => if k' = k then some v else odLookup k rest

/-- The `Parade` object: an ordered mapping of admitted inputs keyed by request
token, the optional ordered output mapping, and the lifecycle status.
(`self.returned`, the condition variable, has no data content; notification is
recorded in `StartWaitResult.notified`.) -/
structure Parade (α β : Type) where
  batch_input : List (String × α)
  batch_output : Option (List (String × β))
  status : Status

/-- `Parade.__init__`: empty input mapping, no outputs, status `OPEN`. -/
def newParade : Parade α β :=
  { batch_input := [], batch_output := none, status := Status.OPEN }

/-- `Parade.feed(id_, data)`: `assert self.status == self.STATUS_OPEN` raises
`AssertionError` when the status is not `OPEN`; otherwise stores the payload
under the token and returns `True`. -/
def Parade.feed (p : Parade α β) (id_ : String) (data : α) :
    Except PyErr (Parade α β × Bool) :=
  if p.status = Status.OPEN then
    Except.ok ({ p with batch_input := odInsert id_ data p.batch_input }, true)
  else
    Except.error PyErr.assertionError

/-- The observable outcome of one run of the `Parade.start_wait` task, after
the initial `asyncio.sleep`:
* `parade` — the Parade fields once the task has finished (its `finally`
  clause included);
* `notified` — whether `self.returned.notify_all()` was reached;
* `statusTrace` — every value assigned to `self.status`, in program order;
* `raised` — the exception re-raised by the `except` clause, if any. -/
structure StartWaitResult (α β : Type) where
  parade : Parade α β
  notified : Bool
  statusTrace : List Status
  raised : Option PyErr

/-- `Parade.start_wait(interval, call)` after the sleep: set status `CLOSED`;
run `call` on the input values in insertion order; on success zip the tokens
(insertion order) with the outputs into `batch_output`, set status `RETURNED`
and notify all waiters; on an exception re-raise it, skipping the
notification; in both cases the `finally` clause assigns status `CLOSED`
last. -/
def Parade.start_wait (p : Parade α β)
    (call : List α → Except PyErr (List β)) : StartWaitResult α β :=
  let closed : Parade α β := { p with status := Status.CLOSED }
  match call (closed.batch_input.map Prod.snd) with
  | Except.error e =>
      { parade := { closed with status := Status.CLOSED },
        notified := false,
        statusTrace := [Status.CLOSED, Status.CLOSED],
        raised := some e }
  | Except.ok outputs =>
      let out := (closed.batch_input.map Prod.fst).zip outputs
      let returned : Parade α β :=
        { closed with batch_output := some out, status := Status.RETURNED }
      { parade := { returned with status := Status.CLOSED },
        notified := true,
        statusTrace := [Status.CLOSED, Status.RETURNED, Status.CLOSED],
        raised := none }

/-- The caller side of `ParadeDispatcher.__call__._func` after admission:
`await parade.returned.wait()` then `parade.batch_output.get(id_)`. The outer
`none` means the waiter is never notified and blocks forever; `some o` means
it wakes and reads `o = batch_output.get(id_)` (itself `none` when the token
is absent from the output mapping). -/
def waiterOutcome (r : StartWaitResult α β) (id_ : String) : Option (Option β) :=
  if r.notified then
    some (match r.parade.batch_output with
          | some out => odLookup id_ out
          | none => none)
  else
    none

/-- Feeding a list of admissions one at a time, propagating the first raised
exception (each caller task runs `parade.feed(id_, inputs)` once). -/
def feedAll (p : Parade α β) : List (String × α) → Except PyErr (Parade α β)
  | [] => Except.ok p
  | (k, v) :: rest =>
      match p.feed k v with
      | Except.error e => Except.error e
      | Except.ok (p', _) => feedAll p' rest

/-- The `OPEN` parade whose input mapping holds exactly the given admissions. -/
def mkOpenParade (adm : List (String × α)) : Parade α β :=
  { batch_input := adm, batch_output := none, status := Status.OPEN }

/-- The body of `ParadeDispatcher.__call__._func` between `get_parade()` and
the wait: a single call to `parade.feed(id_, inputs)` with no surrounding
`try`/`except` and no retry, so an `AssertionError` from `feed` propagates to
the caller of `_func`. -/
def dispatcherFeedPhase (parade : Parade α β) (id_ : String) (inputs : α) :
    Except PyErr (Parade α β) :=
  match parade.feed id_ inputs with
  | Except.error e => Except.error e
  | Except.ok (p', _) => Except.ok p'

/-!
## ParadeDispatcher state machine

`ParadeDispatcher.get_parade` runs with no `await` inside, so under asyncio's
single-threaded cooperative scheduling it is one atomic step. The dispatcher
state records the status of every `Parade` the dispatcher has created (index =
creation order) and which one `self._current_parade` refers to. The steps a
run of the system can take are: a caller invoking `get_parade`, and the
`start_wait` task of any parade assigning `CLOSED` or `RETURNED` to its
status (`start_wait` never assigns `OPEN`).
-/

/-- Dispatcher state: statuses of the parades created so far (in creation
order) and the index `self._current_parade` points at (`none` initially). -/
structure DispState where
  parades : List Status
  current : Option Nat
deriving DecidableEq, Repr

/-- `ParadeDispatcher.__init__`: no parade created yet. -/
def initDisp : DispState := { parades := [], current := none }

/-- `ParadeDispatcher.get_parade()`: if `self._current_parade` exists and its
status is `OPEN`, return it unchanged; otherwise create one fresh `OPEN`
parade (scheduling its `start_wait` task), store it in
`self._current_parade`, and return it. The returned index is the parade
handed to the caller. -/
def get_parade (s : DispState) : DispState × Nat :=
  match s.current with
  | some i =>
      if s.parades[i]? = some Status.OPEN then (s, i)
      else
        ({ parades := s.parades ++ [Status.OPEN],
           current := some s.parades.length }, s.parades.length)
  | none =>
      ({ parades := s.parades ++ [Status.OPEN],
         current := some s.parades.length }, s.parades.length)

/-- Assignment `parade.status = st` performed by parade `i`'s task. -/
def setStatus (s : DispState) (i : Nat) (st : Status) : DispState :=
  { s with parades := s.parades.set i st }

/-- One atomic step of the dispatcher system: a caller runs `get_parade`, or
some parade's `start_wait` task assigns `CLOSED` or `RETURNED` to its status
(the only status assignments in the source; neither ever re-opens a parade). -/
inductive DStep : DispState → DispState → Prop
  | get (s : DispState) : DStep s (get_parade s).1
  | close (s : DispState) (i : Nat) : DStep s (setStatus s i Status.CLOSED)
  | ret (s : DispState) (i : Nat) : DStep s (setStatus s i Status.RETURNED)

/-- States reachable from the freshly constructed dispatcher. -/
inductive DReach : DispState → Prop
  | init : DReach initDisp
  | step {s t : DispState} : DReach s → DStep s t → DReach t

/-!
## MarshalService
-/

/-- An HTTP response as the relay sees it: status code, raw body bytes
(modelled as a string), headers. -/
structure HttpResponse where
  status : Nat
  body : String
  headers : List (String × String)
deriving DecidableEq, Repr

/-- An inbound aiohttp request: the matched route name, the raw body
(`await request.read()`), and the header mapping. -/
structure HttpRequest where
  name : String
  body : String
  headers : List (String × String)
deriving DecidableEq, Repr

/-- Python `dict.update`: values of keys present in `upd` are overwritten in
place, keys new to `d` are appended in `upd` order. -/
def dictUpdate (d upd : List (String × String)) : List (String × String) :=
  d.map (fun kv =>
    match odLookup kv.1 upd with
    | some v => (kv.1, v)
    | none => kv)
  ++ upd.filter (fun kv => (odLookup kv.1 d).isNone)

/-- What one run of `MarshalService._relay_handler` does, with the backend
HTTP exchange abstracted as a function from (api name, posted data, posted
headers) to the backend's response: the body sent downstream, the headers
sent downstream, and the response returned to the caller. -/
structure RelayResult where
  sentBody : String
  sentHeaders : List (String × String)
  response : HttpResponse
deriving DecidableEq, Repr

/-- `MarshalService._relay_handler(request, api_name)`: read the raw body;
take `request.headers`, update it in place with the tracing headers; POST the
body with those headers to the backend; return a response built from the
backend response's own status, body and headers. -/
def relay_handler (backend : String → String → List (String × String) → HttpResponse)
    (traceHeaders : List (String × String)) (req : HttpRequest)
    (api_name : String) : RelayResult :=
  let data := req.body
  let headers := dictUpdate req.headers traceHeaders
  let resp := backend api_name data headers
  { sentBody := data,
    sentHeaders := headers,
    response :=
      { status := resp.status, body := resp.body, headers := resp.headers } }

/-- `MarshalService.request_dispatcher(request)`: look up
`request.match_info['name']` in `self.batch_handlers`; if a handler is
registered, the request goes through it; otherwise it is relayed to the
backend by `_relay_handler`. -/
def request_dispatcher (handlers : List (String × (HttpRequest → HttpResponse)))
    (backend : String → String → List (String × String) → HttpResponse)
    (traceHeaders : List (String × String)) (req : HttpRequest) : HttpResponse :=
  match odLookup req.name handlers with
  | some h => h req
  | none => (relay_handler backend traceHeaders req req.name).response

/-- The registered value for one endpoint, as far as registration is
concerned: the dispatcher `_func` is determined by the `api_name` and the
`max_latency` passed to `ParadeDispatcher`. -/
structure DispatcherCfg where
  api_name : String
  interval : Nat
deriving DecidableEq, Repr

/-- The `batch_handlers` mapping of a `MarshalService` (`dict` in insertion
order). -/
structure MarshalState where
  batch_handlers : List (String × DispatcherCfg)
deriving DecidableEq, Repr

/-- `MarshalService.add_batch_handler(api_name, max_latency)`: only when
`api_name not in self.batch_handlers`, build the `ParadeDispatcher`-wrapped
`_func` and store it under `api_name`; otherwise do nothing. -/
def add_batch_handler (svc : MarshalState) (api_name : String)
    (max_latency : Nat) : MarshalState :=
  if (odLookup api_name svc.batch_handlers).isSome then svc
  else
    { batch_handlers :=
        svc.batch_handlers ++ [(api_name, ⟨api_name, max_latency⟩)] }

/-- The number of entries registered under a name. -/
def countKey (k : String) (l : List (String × α)) : Nat :=
  (l.filter (fun kv => kv.1 = k)).length

/-- An element of the list returned by the bulk callback built in
`MarshalService.add_batch_handler`: either the uniform
`aiohttp.web.HTTPInternalServerError` class or a split per-request
response. -/
inductive BatchResp (R : Type)
  | http500
  | ok (r : R)
deriving DecidableEq, Repr

/-- The tail of `add_batch_handler._func` when `split_aio_responses` yields
`None` (a merged response that cannot be split): return
`[aiohttp.web.HTTPInternalServerError] * len(requests)` — one uniform server
error per admitted request. -/
def marshalCallbackOnSplitFailure (requests : List α) : List (BatchResp R) :=
  List.replicate requests.length BatchResp.http500

end Marshal

namespace TfHandler

open Marshal (PyErr)

/-!
## TensorflowTensorHandler.handle_batch_request

The per-request body is embedded by its decode outcome: `undecodable` covers a
body whose bytes do not decode as UTF-8 (`UnicodeDecodeError`) or whose text
is not valid JSON (`json.JSONDecodeError`); `withInstances` a JSON object
whose `"instances"` field is present (already coerced to a list);
`withInputs` a JSON object with a truthy `"inputs"` field; `neither` a JSON
object with neither field.

The `except` clause of the collection loop is written
`except (json.exceptions.JSONDecodeError, UnicodeDecodeError)`. The standard
library `json` module has no attribute `exceptions`, so when an exception is
raised in the `try` body, evaluating the clause itself raises
`AttributeError`, which propagates out of `handle_batch_request`.
-/

/-- Decode outcome of one request body in `handle_batch_request`. -/
inductive ReqBody (α : Type)
  | undecodable
  | withInstances (l : List α)
  | withInputs
  | neither
deriving DecidableEq, Repr

/-- A flask `Response` as built in `handle_batch_request`: the 400
`"Bad Input"` default, the 501 column-format response, or a 200 response
carrying a serialized result. -/
inductive FlaskResp (β : Type)
  | badInput
  | notImplemented
  | ok (result : List β)
deriving DecidableEq, Repr

/-- The collection loop of `handle_batch_request`: for each request, decode
and parse its body; store the `instances` list (or leave `None`) in
`instances_list[i]`, and pre-set `responses[i]` (400 default, 501 for the
`inputs` column format). When decoding raises, evaluating the `except`
clause raises `AttributeError` (the `json` module has no `exceptions`
attribute), aborting the whole call. -/
def collectPhase :
    List (ReqBody α) → Except PyErr (List (Option (List α)) × List (FlaskResp β))
  | [] => Except.ok ([], [])
  | ReqBody.undecodable :: _ => Except.error PyErr.attributeError
  | ReqBody.withInstances l :: rest =>
      match collectPhase rest with
      | Except.error e => Except.error e
      | Except.ok (is_, resps) =>
          Except.ok (some l :: is_, FlaskResp.badInput :: resps)
  | ReqBody.withInputs :: rest =>
      match collectPhase rest with
      | Except.error e => Except.error e
      | Except.ok (is_, resps) =>
          Except.ok (none :: is_, FlaskResp.notImplemented :: resps)
  | ReqBody.neither :: rest =>
      match collectPhase rest with
      | Except.error e => Except.error e
      | Except.ok (is_, resps) =>
          Except.ok (none :: is_, FlaskResp.badInput :: resps)

/-- Modelled from the spec: `bentoml.handlers.utils.concat_list` is not under
src/. Following the spec's merge/split round-trip contract ("merging inputs
[A, B, C] then splitting a backend response covering all three must reproduce
exactly 3 outputs, each attributable to its original input"), present entries
are concatenated in order and each is assigned the slice (start, length) of
the merged list covering its elements; an absent (`None`) entry gets no slice
(`None`). The accumulator `start` is the running element offset. -/
def concatGo (start : Nat) :
    List (Option (List α)) → List α × List (Option (Nat × Nat))
  | [] => ([], [])
  | none :: rest =>
      let (d, s) := concatGo start rest
      (d, none :: s)
  | some l :: rest =>
      let (d, s) := concatGo (start + l.length) rest
      (l ++ d, some (start, l.length) :: s)

/-- Modelled from the spec: see `concatGo`. -/
def concat_list (l : List (Option (List α))) :
    List α × List (Option (Nat × Nat)) :=
  concatGo 0 l

/-- Python list indexing `merged_result[s]` where `s` is a slice or `None`:
a slice yields the (clamped) sublist; `None` raises `TypeError` (list indices
must be integers or slices). -/
def pySliceIndex (l : List β) : Option (Nat × Nat) → Except PyErr (List β)
  | none => Except.error PyErr.typeError
  | some (s, n) => Except.ok ((l.drop s).take n)

/-- `TensorflowTensorHandler.handle_batch_request(requests, func)`: run the
collection loop; merge the instance lists; apply `func` to the merged tensor;
split the merged result by the recorded slices; then the final loop assigns
`responses[i] = Response(result_str, 200)` for every `i` in
`enumerate(results)` — overwriting each pre-set response, since `results` has
one entry per request. -/
def handle_batch_request (requests : List (ReqBody α))
    (func : List α → List β) : Except PyErr (List (FlaskResp β)) :=
  match collectPhase (β := β) requests with
  | Except.error e => Except.error e
  | Except.ok (instances_list, _responses) =>
      let ms := concat_list instances_list
      let merged_result := func ms.1
      match ms.2.mapM (pySliceIndex merged_result) with
      | Except.error e => Except.error e
      | Except.ok results => Except.ok (results.map FlaskResp.ok)

end TfHandler

namespace Marshal

/-!
## Helper lemmas
-/

/-- Evaluation of `start_wait` when the bulk call returns outputs. -/
lemma start_wait_ok {p : Parade α β} {call : List α → Except PyErr (List β)}
    {outs : List β} (h : call (p.batch_input.map Prod.snd) = Except.ok outs) :
    p.start_wait call =
      { parade :=
          { batch_input := p.batch_input,
            batch_output := some ((p.batch_input.map Prod.fst).zip outs),
            status := Status.CLOSED },
        notified := true,
        statusTrace := [Status.CLOSED, Status.RETURNED, Status.CLOSED],
        raised := none } := by
  simp [Parade.start_wait, h]

/-- Evaluation of `start_wait` when the bulk call raises. -/
lemma start_wait_err {p : Parade α β} {call : List α → Except PyErr (List β)}
    {e : PyErr} (h : call (p.batch_input.map Prod.snd) = Except.error e) :
    p.start_wait call =
      { parade :=
          { batch_input := p.batch_input,
            batch_output := p.batch_output,
            status := Status.CLOSED },
        notified := false,
        statusTrace := [Status.CLOSED, Status.CLOSED],
        raised := some e } := by
  simp [Parade.start_wait, h]

/-- `OrderedDict` assignment of a fresh key appends the pair at the end. -/
lemma odInsert_fresh {k : String} {v : α} :
    ∀ {l : List (String × α)}, k ∉ l.map Prod.fst → odInsert k v l = l ++ [(k, v)]
  | [], _ => rfl
  | (k', v') :: rest, h => by
      have hk : k' ≠ k := by
        intro hkk
        exact h (by simp [hkk])
      have hrest : k ∉ rest.map Prod.fst := fun hm => h (by simp [hm])
      simp [odInsert, hk, odInsert_fresh hrest]

/-- Feeding admissions with pairwise-fresh keys into an `OPEN` parade appends
them to the input mapping in admission order. -/
lemma feedAll_fresh :
    ∀ {adm pre : List (String × α)},
      ((pre ++ adm).map Prod.fst).Nodup →
      feedAll (β := β) (mkOpenParade pre) adm = Except.ok (mkOpenParade (pre ++ adm))
  | [], pre, _ => by simp [feedAll, mkOpenParade]
  | (k, v) :: adm, pre, h => by
      have hfresh : k ∉ pre.map Prod.fst := by
        intro hm
        rw [List.map_append, List.nodup_append] at h
        exact h.2.2 hm (by simp)
      have hstep : odInsert k v pre = pre ++ [(k, v)] := odInsert_fresh hfresh
      have hnext : (((pre ++ [(k, v)]) ++ adm).map Prod.fst).Nodup := by
        simpa using h
      have ih := feedAll_fresh (β := β) hnext
      have hfeed : (mkOpenParade pre : Parade α β).feed k v =
          Except.ok (mkOpenParade (pre ++ [(k, v)]), true) := by
        simp [Parade.feed, mkOpenParade, hstep]
      simp only [feedAll, hfeed, ih]
      simp [mkOpenParade]

/-- Looking a key up in the zip of a duplicate-free key list with an output
list finds the output at the key's position (or nothing, beyond the zip). -/
lemma odLookup_zip {β : Type} :
    ∀ {keys : List String} {outs : List β} {i : Nat} {k : String},
      keys.Nodup → keys[i]? = some k → odLookup k (keys.zip outs) = outs[i]?
  | [], _, i, _, _, hk => by simp at hk
  | k' :: keys, [], i, k, _, _ => by
      cases i <;> simp [List.zip_nil_right, odLookup]
  | k' :: keys, o :: outs, 0, k, _, hk => by
      have : k' = k := by simpa using hk
      simp [List.zip_cons_cons, odLookup, this]
  | k' :: keys, o :: outs, i + 1, k, hnd, hk => by
      have hk' : keys[i]? = some k := by simpa using hk
      have hne : k' ≠ k := by
        intro he
        exact (List.nodup_cons.mp hnd).1 (he ▸ List.getElem?_mem hk')
      have ih := @odLookup_zip β keys outs i k (List.nodup_cons.mp hnd).2 hk'
      simpa [List.zip_cons_cons, odLookup, hne] using ih

/-!
## Concrete instances used by witnesses and counterexamples
-/

/-- A parade in `CLOSED` state with no admissions, over `Nat` payloads. -/
def closedParadeNat : Parade Nat Nat :=
  { batch_input := [], batch_output := none, status := Status.CLOSED }

/-- An `OPEN` parade holding one admission. -/
def openParade1 : Parade Nat Nat := mkOpenParade [("a", 1)]

/-- An `OPEN` parade holding two admissions. -/
def openParade2 : Parade Nat Nat := mkOpenParade [("a", 1), ("b", 2)]

/-- A bulk call that returns the single output `10`. -/
def okCall10 : List Nat → Except PyErr (List Nat) := fun _ => Except.ok [10]

/-- A bulk call that raises. -/
def errCall : List Nat → Except PyErr (List Nat) := fun _ =>
  Except.error PyErr.exception

/-- A three-admission sequence with distinct tokens. -/
def admABC : List (String × Nat) := [("a", 1), ("b", 2), ("c", 3)]

/-- A bulk call returning three outputs. -/
def callABC : List Nat → Except PyErr (List Nat) := fun _ =>
  Except.ok [10, 20, 30]

/-- A one-admission parade whose outputs are split batch responses. -/
def splitFailParade : Parade Nat (BatchResp Nat) := mkOpenParade [("a", 1)]

/-!
## Claim theorems
-/

/-- C1: for a sequence of admissions with distinct tokens into one fresh
Parade, feeding builds the input mapping in exact admission order (so the
bulk call in `start_wait` receives the payloads in that order), and on
success the output mapping zips tokens with outputs positionally, so the
caller that admitted `input[i]` reads back `output[i]`. -/
theorem parade_order_preservation (adm : List (String × α)) (outs : List β)
    (call : List α → Except PyErr (List β))
    (hnd : (adm.map Prod.fst).Nodup)
    (hcall : call (adm.map Prod.snd) = Except.ok outs) :
    feedAll (β := β) newParade adm = Except.ok (mkOpenParade adm) ∧
    ((mkOpenParade adm : Parade α β).start_wait call).parade.batch_output =
      some ((adm.map Prod.fst).zip outs) ∧
    ∀ (i : Nat) (k : String) (v : α) (out : β),
      adm[i]? = some (k, v) → outs[i]? = some out →
      waiterOutcome ((mkOpenParade adm : Parade α β).start_wait call) k =
        some (some out) := by
  have hfeed : feedAll (β := β) newParade adm = Except.ok (mkOpenParade adm) := by
    simpa [newParade, mkOpenParade] using
      @feedAll_fresh α β adm [] (by simpa using hnd)
  refine ⟨hfeed, ?_, ?_⟩
  · rw [start_wait_ok (p := (mkOpenParade adm : Parade α β)) hcall]
    rfl
  · intro i k v out hik hout
    have hkey : (adm.map Prod.fst)[i]? = some k := by
      simp [List.getElem?_map, hik]
    have hlz := @odLookup_zip β (adm.map Prod.fst) outs i k hnd hkey
    rw [start_wait_ok (p := (mkOpenParade adm : Parade α β)) hcall]
    simp [waiterOutcome, mkOpenParade, hlz, hout]

/-- C1 witness: three admissions, the second caller reads the second output. -/
theorem parade_order_preservation_witness :
    waiterOutcome ((mkOpenParade admABC : Parade Nat Nat).start_wait callABC) "b" =
      some (some 20) :=
  (parade_order_preservation admABC [10, 20, 30] callABC (by decide) rfl).2.2
    1 "b" 2 20 rfl rfl

/-- C2 counterexample: with one admitted request and a bulk call that raises,
`start_wait` never notifies — the waiter's outcome is `none` (it blocks
forever; no failure outcome is delivered), the output mapping stays absent,
and the parade ends `CLOSED`. -/
theorem start_wait_raise_unnotified_cex :
    (openParade1.start_wait errCall).notified = false ∧
    waiterOutcome (openParade1.start_wait errCall) "a" = none ∧
    (openParade1.start_wait errCall).parade.status = Status.CLOSED ∧
    (openParade1.start_wait errCall).parade.batch_output = none :=
  ⟨rfl, rfl, rfl, rfl⟩

/-- C2 (amended): when the bulk call raises, no waiter is notified (every
waiter outcome is `none` — an unbounded wait, with no failure outcome
delivered), the output mapping is untouched and the Batch ends `CLOSED`;
waiters receive a uniform server-error outcome only through the non-raising
path in which the bulk callback itself returns
`HTTPInternalServerError` for every admitted request, as
`add_batch_handler._func` does when the merged response cannot be split. -/
theorem start_wait_backend_failure_behaviour
    (p : Parade α β) (call : List α → Except PyErr (List β)) (e : PyErr)
    (q : Parade γ (BatchResp R))
    (hcall : call (p.batch_input.map Prod.snd) = Except.error e)
    (hnd : (q.batch_input.map Prod.fst).Nodup) :
    (p.start_wait call).notified = false ∧
    (p.start_wait call).parade.status = Status.CLOSED ∧
    (p.start_wait call).parade.batch_output = p.batch_output ∧
    (∀ k, waiterOutcome (p.start_wait call) k = none) ∧
    (∀ (i : Nat) (k : String) (v : γ), q.batch_input[i]? = some (k, v) →
       waiterOutcome
         (q.start_wait (fun xs => Except.ok (marshalCallbackOnSplitFailure xs))) k =
         some (some BatchResp.http500)) := by
  rw [start_wait_err hcall]
  refine ⟨rfl, rfl, rfl, fun k => rfl, ?_⟩
  intro i k v hik
  have hkey : (q.batch_input.map Prod.fst)[i]? = some k := by
    simp [List.getElem?_map, hik]
  have hlt : i < q.batch_input.length :=
    (List.getElem?_eq_some_iff.mp hik).1
  have hlz : odLookup k ((q.batch_input.map Prod.fst).zip
        (List.replicate q.batch_input.length (BatchResp.http500 (R := R)))) =
      (List.replicate q.batch_input.length (BatchResp.http500 (R := R)))[i]? := by
    simpa using @odLookup_zip (BatchResp R) (q.batch_input.map Prod.fst)
      (List.replicate (q.batch_input.map Prod.snd).length
        (BatchResp.http500 (R := R)))
      i k hnd hkey
  simp [Parade.start_wait, waiterOutcome, marshalCallbackOnSplitFailure, hlz,
    List.getElem?_replicate_of_lt hlt]

/-- C2 witness: the raise path leaves the single waiter blocked, while the
split-failure path delivers the uniform server error. -/
theorem start_wait_backend_failure_behaviour_witness :
    waiterOutcome (openParade1.start_wait errCall) "a" = none ∧
    waiterOutcome
      (splitFailParade.start_wait
        (fun xs => Except.ok (marshalCallbackOnSplitFailure xs))) "a" =
      some (some BatchResp.http500) := by
  have h := start_wait_backend_failure_behaviour openParade1 errCall
    PyErr.exception splitFailParade rfl (by decide)
  exact ⟨h.2.2.2.1 "a", h.2.2.2.2 0 "a" 1 rfl⟩

/-- C3 counterexample: calling `feed` on a `CLOSED` parade raises
`AssertionError` rather than returning a failure value. -/
theorem feed_nonopen_raises_cex :
    closedParadeNat.feed "a" 1 = Except.error PyErr.assertionError := rfl

/-- C3 (amended): `feed` succeeds — appends to the input mapping and returns
`True` — exactly when the status is `OPEN`; in any other state the `assert`
raises `AssertionError`, an exception rather than a failure return value. -/
theorem feed_succeeds_iff_open (p : Parade α β) (k : String) (v : α) :
    (p.status = Status.OPEN →
       p.feed k v =
         Except.ok ({ p with batch_input := odInsert k v p.batch_input }, true)) ∧
    (p.status ≠ Status.OPEN → p.feed k v = Except.error PyErr.assertionError) := by
  constructor
  · intro h; simp [Parade.feed, h]
  · intro h; simp [Parade.feed, h]

/-- C3 witness: one `OPEN` success, one `CLOSED` assertion failure. -/
theorem feed_succeeds_iff_open_witness :
    (mkOpenParade [] : Parade Nat Nat).feed "a" 1 =
      Except.ok (mkOpenParade [("a", 1)], true) ∧
    closedParadeNat.feed "b" 2 = Except.error PyErr.assertionError :=
  ⟨(feed_succeeds_iff_open (mkOpenParade [] : Parade Nat Nat) "a" 1).1 rfl,
   (feed_succeeds_iff_open closedParadeNat "b" 2).2 (by decide)⟩

/-- C5 counterexample: when admission fails because the Batch is no longer
`OPEN`, `_func` does not obtain a fresh Batch and admit again — the
`AssertionError` from `feed` propagates to the caller. -/
theorem dispatcher_no_retry_cex :
    dispatcherFeedPhase closedParadeNat "a" 1 =
      Except.error PyErr.assertionError := rfl

/-- C5 (amended): `_func` performs a single admission with no retry: if the
parade in hand is not `OPEN`, the assertion error surfaces to the caller; if
it is `OPEN`, the admission succeeds directly. (Between `get_parade()` and
`feed` there is no suspension point, so under cooperative scheduling the
parade obtained is still `OPEN` and the failing branch is never taken.) -/
theorem dispatcher_admission_no_retry (p : Parade α β) (id_ : String) (x : α) :
    (p.status ≠ Status.OPEN →
       dispatcherFeedPhase p id_ x = Except.error PyErr.assertionError) ∧
    (p.status = Status.OPEN →
       dispatcherFeedPhase p id_ x =
         Except.ok { p with batch_input := odInsert id_ x p.batch_input }) := by
  constructor
  · intro h; simp [dispatcherFeedPhase, Parade.feed, h]
  · intro h; simp [dispatcherFeedPhase, Parade.feed, h]

/-- C5 witness: a closed parade makes the dispatcher's admission phase
surface the assertion error. -/
theorem dispatcher_admission_no_retry_witness :
    dispatcherFeedPhase closedParadeNat "b" 2 =
      Except.error PyErr.assertionError :=
  (dispatcher_admission_no_retry closedParadeNat "b" 2).1 (by decide)

/-- C6 counterexample: after a successful bulk call, the `finally` clause
overwrites `RETURNED` with `CLOSED`: the statuses assigned are `CLOSED`,
`RETURNED`, `CLOSED`, and the final status is `CLOSED`, not `RETURNED`. -/
theorem start_wait_success_ends_closed_cex :
    (openParade1.start_wait okCall10).statusTrace =
      [Status.CLOSED, Status.RETURNED, Status.CLOSED] ∧
    (openParade1.start_wait okCall10).parade.status = Status.CLOSED ∧
    ¬ (openParade1.start_wait okCall10).parade.status = Status.RETURNED :=
  ⟨rfl, rfl, by decide⟩

/-- C6 (amended): on success the window task passes through `RETURNED` (the
second status assignment, during which waiters are notified), but the
`finally` clause then assigns `CLOSED`; so `CLOSED` is the terminal status
after success as well as after failure, and `RETURNED` is transient. -/
theorem start_wait_terminal_status (p : Parade α β)
    (call : List α → Except PyErr (List β)) :
    (∀ outs, call (p.batch_input.map Prod.snd) = Except.ok outs →
       (p.start_wait call).statusTrace =
         [Status.CLOSED, Status.RETURNED, Status.CLOSED] ∧
       (p.start_wait call).notified = true ∧
       (p.start_wait call).parade.status = Status.CLOSED) ∧
    (∀ e, call (p.batch_input.map Prod.snd) = Except.error e →
       (p.start_wait call).statusTrace = [Status.CLOSED, Status.CLOSED] ∧
       (p.start_wait call).notified = false ∧
       (p.start_wait call).parade.status = Status.CLOSED) := by
  constructor
  · intro outs h; rw [start_wait_ok h]; exact ⟨rfl, rfl, rfl⟩
  · intro e h; rw [start_wait_err h]; exact ⟨rfl, rfl, rfl⟩

/-- C6 witness: both the success run and the failure run of the window task
terminate with status `CLOSED`. -/
theorem start_wait_terminal_status_witness :
    (openParade1.start_wait okCall10).parade.status = Status.CLOSED ∧
    (openParade1.start_wait errCall).parade.status = Status.CLOSED :=
  ⟨((start_wait_terminal_status openParade1 okCall10).1 [10] rfl).2.2,
   ((start_wait_terminal_status openParade1 errCall).2 PyErr.exception rfl).2.2⟩

/-- C9 counterexample: two admissions but a single returned output — instead
of a backend-call failure, the parade reaches `RETURNED`, the zip silently
truncates the output mapping to one entry, and the second waiter reads an
absent value (`None`), not a server error. -/
theorem length_mismatch_truncates_cex :
    (openParade2.start_wait okCall10).statusTrace =
      [Status.CLOSED, Status.RETURNED, Status.CLOSED] ∧
    (openParade2.start_wait okCall10).notified = true ∧
    (openParade2.start_wait okCall10).parade.batch_output = some [("a", 10)] ∧
    waiterOutcome (openParade2.start_wait okCall10) "b" = some none :=
  ⟨rfl, rfl, rfl, rfl⟩

/-- C9 (amended): a returned output list of the wrong length is not detected:
the output mapping is the positional zip truncated to the shorter list, the
waiters are notified as on success, and every admitted token whose position
is at or beyond the output length resolves to an absent value (`None`). -/
theorem start_wait_zip_truncation (p : Parade α β)
    (call : List α → Except PyErr (List β)) (outs : List β)
    (hcall : call (p.batch_input.map Prod.snd) = Except.ok outs) :
    (p.start_wait call).parade.batch_output =
      some ((p.batch_input.map Prod.fst).zip outs) ∧
    (p.start_wait call).notified = true ∧
    ((p.batch_input.map Prod.fst).Nodup →
       ∀ (i : Nat) (k : String) (v : α),
         p.batch_input[i]? = some (k, v) → outs.length ≤ i →
         waiterOutcome (p.start_wait call) k = some none) := by
  rw [start_wait_ok hcall]
  refine ⟨rfl, rfl, ?_⟩
  intro hnd i k v hik hlen
  have hkey : (p.batch_input.map Prod.fst)[i]? = some k := by
    simp [List.getElem?_map, hik]
  have hlz := @odLookup_zip β (p.batch_input.map Prod.fst) outs i k hnd hkey
  have hnone : outs[i]? = none := List.getElem?_eq_none hlen
  simp [waiterOutcome, hlz, hnone]

/-- C9 witness: the second of two admitted tokens, with only one output
returned, resolves to an absent value. -/
theorem start_wait_zip_truncation_witness :
    waiterOutcome (openParade2.start_wait okCall10) "b" = some none := by
  have h := start_wait_zip_truncation openParade2 okCall10 [10] rfl
  exact h.2.2 (by decide) 1 "b" 2 rfl (by decide)

/-!
## Dispatcher invariant lemmas
-/

/-- Any parade recorded as `OPEN` is the dispatcher's current parade. -/
def OpenIsCurrent (s : DispState) : Prop :=
  ∀ i, s.parades[i]? = some Status.OPEN → s.current = some i

lemma openIsCurrent_init : OpenIsCurrent initDisp := by
  intro i h
  simp [initDisp] at h

lemma openIsCurrent_append {s : DispState} (h : OpenIsCurrent s)
    (hnone : ∀ i, s.current = some i → s.parades[i]? ≠ some Status.OPEN) :
    OpenIsCurrent
      { parades := s.parades ++ [Status.OPEN],
        current := some s.parades.length } := by
  intro j hj
  have hj' : (s.parades ++ [Status.OPEN])[j]? = some Status.OPEN := hj
  show some s.parades.length = some j
  rcases Nat.lt_trichotomy j s.parades.length with hlt | heq | hgt
  · rw [List.getElem?_append_left hlt] at hj'
    exact absurd hj' (hnone j (h j hj'))
  · rw [heq]
  · have hlen : (s.parades ++ [Status.OPEN]).length ≤ j := by
      simp only [List.length_append, List.length_cons, List.length_nil]
      omega
    rw [List.getElem?_eq_none hlen] at hj'
    cases hj'

lemma openIsCurrent_getParade {s : DispState} (h : OpenIsCurrent s) :
    OpenIsCurrent (get_parade s).1 := by
  unfold get_parade
  cases hc : s.current with
  | none =>
      exact openIsCurrent_append h (fun i hi => by rw [hc] at hi; cases hi)
  | some i =>
      by_cases hopen : s.parades[i]? = some Status.OPEN
      · simpa [hopen] using h
      · simp only [hopen, if_neg, ite_false]
        exact openIsCurrent_append h
          (fun i' hi' => by rw [hc] at hi'; cases hi'; exact hopen)

lemma openIsCurrent_set {s : DispState} (h : OpenIsCurrent s) (i : Nat)
    (st : Status) (hst : st ≠ Status.OPEN) : OpenIsCurrent (setStatus s i st) := by
  intro j hj
  have hj' : (s.parades.set i st)[j]? = some Status.OPEN := hj
  show s.current = some j
  rw [List.getElem?_set] at hj'
  by_cases hij : i = j
  · rw [if_pos hij] at hj'
    by_cases hlen : i < s.parades.length
    · rw [if_pos hlen] at hj'
      injection hj' with he
      exact absurd he hst
    · rw [if_neg hlen] at hj'
      cases hj'
  · rw [if_neg hij] at hj'
    exact h j hj'

lemma openIsCurrent_step {s t : DispState} (h : OpenIsCurrent s)
    (hstep : DStep s t) : OpenIsCurrent t := by
  cases hstep with
  | get => exact openIsCurrent_getParade h
  | close i => exact openIsCurrent_set h i Status.CLOSED (by decide)
  | ret i => exact openIsCurrent_set h i Status.RETURNED (by decide)

lemma openIsCurrent_reach {s : DispState} (h : DReach s) : OpenIsCurrent s := by
  induction h with
  | init => exact openIsCurrent_init
  | step _ hstep ih => exact openIsCurrent_step ih hstep

/-- C4: in every reachable dispatcher state, at most one created parade is
`OPEN`; `get_parade` hands back the current parade unchanged when it is
`OPEN`, and otherwise appends exactly one fresh `OPEN` parade and makes it
current. -/
theorem dispatcher_at_most_one_open (s : DispState) (hs : DReach s) :
    (∀ (i j : Nat), s.parades[i]? = some Status.OPEN →
       s.parades[j]? = some Status.OPEN → i = j) ∧
    (∀ (i : Nat), s.current = some i → s.parades[i]? = some Status.OPEN →
       get_parade s = (s, i)) ∧
    ((∀ (i : Nat), s.current = some i → s.parades[i]? ≠ some Status.OPEN) →
       (get_parade s).1.parades = s.parades ++ [Status.OPEN] ∧
       (get_parade s).1.current = some s.parades.length ∧
       (get_parade s).2 = s.parades.length) := by
  have hinv := openIsCurrent_reach hs
  refine ⟨?_, ?_, ?_⟩
  · intro i j hi hj
    have h1 := hinv i hi
    have h2 := hinv j hj
    exact Option.some.inj (h1.symm.trans h2)
  · intro i hc hopen
    simp [get_parade, hc, hopen]
  · intro hforall
    cases hc : s.current with
    | none => simp [get_parade, hc]
    | some i => simp [get_parade, hc, hforall i hc]

/-- A dispatcher state reached by: a first `get_parade` (creates parade 0),
the window task closing parade 0, and a second `get_parade` (creates
parade 1). -/
def witState : DispState :=
  { parades := [Status.CLOSED, Status.OPEN], current := some 1 }

/-- C4 witness: in the concrete reachable state `witState`, the current
parade is `OPEN` and `get_parade` returns it without creating another. -/
theorem dispatcher_at_most_one_open_witness :
    get_parade witState = (witState, 1) := by
  have h1 : DReach initDisp := DReach.init
  have h2 := DReach.step h1 (DStep.get initDisp)
  have h3 := DReach.step h2 (DStep.close _ 0)
  have h4 := DReach.step h3 (DStep.get _)
  have hreach : DReach witState := h4
  exact (dispatcher_at_most_one_open witState hreach).2.1 1 rfl rfl

/-!
## Registration lemmas
-/

lemma odLookup_append_of_none {k : String} :
    ∀ {l l' : List (String × α)}, odLookup k l = none →
      odLookup k (l ++ l') = odLookup k l'
  | [], _, _ => rfl
  | (k', v) :: rest, l', h => by
      by_cases hk : k' = k
      · simp [odLookup, hk] at h
      · simp only [odLookup, hk, if_false, List.cons_append, ite_false] at h ⊢
        exact odLookup_append_of_none h

lemma countKey_append (k : String) (l l' : List (String × α)) :
    countKey k (l ++ l') = countKey k l + countKey k l' := by
  simp [countKey, List.filter_append]

lemma countKey_eq_zero_of_none {k : String} :
    ∀ {l : List (String × α)}, odLookup k l = none → countKey k l = 0
  | [], _ => rfl
  | (k', v) :: rest, h => by
      by_cases hk : k' = k
      · simp [odLookup, hk] at h
      · simp only [odLookup, hk, if_false, ite_false] at h
        simpa [countKey, hk] using countKey_eq_zero_of_none h

lemma one_le_countKey_of_some {k : String} {v : DispatcherCfg} :
    ∀ {l : List (String × DispatcherCfg)}, odLookup k l = some v →
      1 ≤ countKey k l
  | [], h => by simp [odLookup] at h
  | (k', v') :: rest, h => by
      by_cases hk : k' = k
      · simp [countKey, hk]
      · simp only [odLookup, hk, if_false, ite_false] at h
        have := one_le_countKey_of_some h
        simpa [countKey, hk] using this

lemma add_batch_handler_of_some {svc : MarshalState} {name : String} {l : Nat}
    (h : (odLookup name svc.batch_handlers).isSome) :
    add_batch_handler svc name l = svc := by
  simp [add_batch_handler, h]

lemma add_batch_handler_of_none {svc : MarshalState} {name : String} {l : Nat}
    (h : odLookup name svc.batch_handlers = none) :
    add_batch_handler svc name l =
      { batch_handlers :=
          svc.batch_handlers ++ [(name, ⟨name, l⟩)] } := by
  simp [add_batch_handler, h]

/-- C10: registration is idempotent — a second `add_batch_handler` for the
same name is the identity and leaves the dispatcher registered by the first
call in place — and the mapping holds at most one entry per name: the count
after a registration is `max(previous count, 1)`. -/
theorem add_batch_handler_idempotent (svc : MarshalState) (name : String)
    (l1 l2 : Nat) :
    add_batch_handler (add_batch_handler svc name l1) name l2 =
      add_batch_handler svc name l1 ∧
    countKey name (add_batch_handler svc name l1).batch_handlers =
      max (countKey name svc.batch_handlers) 1 ∧
    (odLookup name svc.batch_handlers = none →
       odLookup name
         (add_batch_handler (add_batch_handler svc name l1) name l2).batch_handlers =
         some ⟨name, l1⟩) := by
  by_cases h : (odLookup name svc.batch_handlers).isSome
  · obtain ⟨v, hv⟩ := Option.isSome_iff_exists.mp h
    have hid : add_batch_handler svc name l1 = svc := add_batch_handler_of_some h
    refine ⟨?_, ?_, ?_⟩
    · rw [hid]
      exact add_batch_handler_of_some h
    · rw [hid]
      exact (Nat.max_eq_left (one_le_countKey_of_some hv)).symm
    · intro hnone
      rw [hnone] at hv
      cases hv
  · have hnone : odLookup name svc.batch_handlers = none :=
      Option.not_isSome_iff_eq_none.mp h
    have h1 : add_batch_handler svc name l1 =
        { batch_handlers := svc.batch_handlers ++ [(name, ⟨name, l1⟩)] } :=
      add_batch_handler_of_none hnone
    have hlook1 : odLookup name (add_batch_handler svc name l1).batch_handlers =
        some ⟨name, l1⟩ := by
      rw [h1]
      show odLookup name (svc.batch_handlers ++ [(name, ⟨name, l1⟩)]) = _
      rw [odLookup_append_of_none hnone]
      simp [odLookup]
    have h2 : add_batch_handler (add_batch_handler svc name l1) name l2 =
        add_batch_handler svc name l1 :=
      add_batch_handler_of_some (by rw [hlook1]; rfl)
    refine ⟨h2, ?_, fun _ => by rw [h2, hlook1]⟩
    rw [h1]
    show countKey name (svc.batch_handlers ++ [(name, ⟨name, l1⟩)]) = _
    rw [countKey_append, countKey_eq_zero_of_none hnone]
    simp [countKey]

/-- C10 witness: registering the same endpoint twice on an empty service
keeps the first dispatcher. -/
theorem add_batch_handler_idempotent_witness :
    odLookup "a"
      (add_batch_handler (add_batch_handler ⟨[]⟩ "a" 5) "a" 9).batch_handlers =
      some ⟨"a", 5⟩ :=
  (add_batch_handler_idempotent ⟨[]⟩ "a" 5 9).2.2 rfl

/-- C8: routing sends a request through the registered handler exactly when
one exists for its endpoint name; otherwise `_relay_handler` posts the raw
request body with the request's headers (updated in place with the tracing
headers) to the backend, and the response returned to the caller carries the
backend response's own status, body and headers unmodified. -/
theorem request_dispatcher_routing
    (handlers : List (String × (HttpRequest → HttpResponse)))
    (backend : String → String → List (String × String) → HttpResponse)
    (traceHeaders : List (String × String)) (req : HttpRequest) :
    (∀ h, odLookup req.name handlers = some h →
       request_dispatcher handlers backend traceHeaders req = h req) ∧
    (odLookup req.name handlers = none →
       (relay_handler backend traceHeaders req req.name).sentBody = req.body ∧
       (relay_handler backend traceHeaders req req.name).sentHeaders =
         dictUpdate req.headers traceHeaders ∧
       request_dispatcher handlers backend traceHeaders req =
         backend req.name req.body (dictUpdate req.headers traceHeaders)) := by
  constructor
  · intro h hlook
    simp [request_dispatcher, hlook]
  · intro hlook
    refine ⟨rfl, rfl, ?_⟩
    simp [request_dispatcher, relay_handler, hlook]

/-- A request whose endpoint name has a registered batch handler. -/
def reqA : HttpRequest := { name := "a", body := "B", headers := [("k", "v")] }

/-- A request whose endpoint name has no registered batch handler. -/
def reqZ : HttpRequest := { name := "z", body := "B", headers := [("k", "v")] }

/-- A handler table registering only endpoint `a`. -/
def handlersA : List (String × (HttpRequest → HttpResponse)) :=
  [("a", fun _ => { status := 200, body := "batched", headers := [] })]

/-- A backend echoing the posted body and name with the posted headers. -/
def backend0 : String → String → List (String × String) → HttpResponse :=
  fun n b hs => { status := 201, body := b ++ n, headers := hs }

/-- C8 witness: the registered name goes through the handler; the
unregistered name is relayed and yields the backend's own response. -/
theorem request_dispatcher_routing_witness :
    request_dispatcher handlersA backend0 [] reqA =
      { status := 200, body := "batched", headers := [] } ∧
    request_dispatcher handlersA backend0 [] reqZ =
      { status := 201, body := "Bz", headers := [("k", "v")] } := by
  constructor
  · exact (request_dispatcher_routing handlersA backend0 [] reqA).1 _ rfl
  · have h := ((request_dispatcher_routing handlersA backend0 [] reqZ).2 rfl).2.2
    exact h.trans (by decide)

end Marshal

namespace TfHandler

open Marshal (PyErr)

/-- C7 (code bug): in a batch of three requests whose middle payload is
undecodable, `handle_batch_request` does not isolate the decode failure — the
`except` clause names `json.exceptions.JSONDecodeError`, an attribute the
`json` module does not have, so handling the decode error raises
`AttributeError` and the whole call aborts with no responses at all; the same
batch with the middle payload decodable returns the three 200 responses. -/
theorem handle_batch_request_decode_abort :
    handle_batch_request
        [ReqBody.withInstances [(1 : Nat)], ReqBody.undecodable,
         ReqBody.withInstances [3]]
        (fun l => l.map (fun x => x * 10)) =
      Except.error PyErr.attributeError ∧
    handle_batch_request
        [ReqBody.withInstances [(1 : Nat)], ReqBody.withInstances [2],
         ReqBody.withInstances [3]]
        (fun l => l.map (fun x => x * 10)) =
      Except.ok [FlaskResp.ok [10], FlaskResp.ok [20], FlaskResp.ok [30]] :=
  ⟨rfl, rfl⟩

end TfHandler

